import Mathlib

/-
Verification of the bounded monotonic counter package (single-threaded
Sequence and AtomicSequence) against its specification.

The embedding models uint64 values as natural numbers together with
explicit reduction modulo 2^64 exactly where the Go code can overflow
(the additions in Next and Init, and the unsigned subtraction that
computes the pre-start sentinel).  Every operation is translated from
the source: it returns the updated state together with an optional
error, because the Go methods mutate the receiver in place even on
several failure paths.
-/

namespace Sequence

/-- Modulus of 64-bit unsigned arithmetic. -/
def U64MOD : Nat := 2 ^ 64

/-- Wrapping 64-bit addition, as performed by atomic.AddUint64. -/
def add64 (a b : Nat) : Nat := (a + b) % U64MOD

/-- Wrapping 64-bit subtraction: for a, b below 2^64 this is the value
of the Go expression a - b on uint64 operands. -/
def sub64 (a b : Nat) : Nat := (a + (U64MOD - b % U64MOD)) % U64MOD

/-- Threshold of the sign bit: a uint64 value at or above 2^63
reinterpreted as int64 is negative. -/
def SIGN : Nat := 2 ^ 63

/-- MinimumBound constant of the package (lowest permitted bound). -/
def MinimumBound : Nat := 1

/-- MaximumBound constant of the package: the maximum representable
uint64 minus one, reserving the top value. -/
def MaximumBound : Nat := 2 ^ 64 - 2

/-- The Sequence state: four uint64 fields plus the initialized flag.
AtomicSequence in the source is declared as the same struct type. -/
structure State where
  current : Nat
  increment : Nat
  minvalue : Nat
  maxvalue : Nat
  initialized : Bool
deriving DecidableEq, Repr

/-- A freshly allocated (zero-valued, unconfigured) instance, as
produced by new(AtomicSequence). -/
def freshSeq : State := ⟨0, 0, 0, 0, false⟩

/-- Error taxonomy: one constructor per distinct failure site of the
source, named after the specification error kinds. -/
inductive SeqError where
  | alreadyInitialized
  | invalidBounds
  | invalidStep
  | tooManyArguments
  | notInitialized
  | notStarted
  | belowMinimum
  | aboveMaximum
  | nonMonotonic
  | malformedState
deriving DecidableEq, Repr

/-- The tail of AtomicSequence.Init shared by all argument counts: the
Go code checks int(minvalue) - int(increment) < 0 (an int64 subtraction
that wraps, hence the sign-bit test on the 64-bit difference) and on
success swaps current to minvalue - increment and sets initialized. -/
def finishInit (t : State) : State × Option SeqError :=
  if SIGN ≤ sub64 t.minvalue t.increment then
    (t, some SeqError.invalidStep)
  else
    ({ t with current := sub64 t.minvalue t.increment, initialized := true },
     none)

/-- AtomicSequence.Init.  Faithful to the source: a repeated Init fails
up front; each arity adds (AddUint64, not a store) the resolved values
into the existing fields; the argument checks of an arity run before
its adds; the final minvalue/increment check of finishInit runs after
them, so that failure path leaves the added field values behind. -/
def Init (s : State) (params : List Nat) : State × Option SeqError :=
  if s.initialized then (s, some SeqError.alreadyInitialized)
  else
    match params with
    | [] =>
        finishInit { s with
          increment := add64 s.increment 1,
          minvalue := add64 s.minvalue MinimumBound,
          maxvalue := add64 s.maxvalue MaximumBound }
    | [p0] =>
        if p0 < MinimumBound then (s, some SeqError.invalidBounds)
        else
          finishInit { s with
            increment := add64 s.increment 1,
            minvalue := add64 s.minvalue MinimumBound,
            maxvalue := add64 s.maxvalue p0 }
    | [p0, p1] =>
        if p1 < p0 then (s, some SeqError.invalidBounds)
        else if p0 < MinimumBound ∨ MaximumBound < p1 then
          (s, some SeqError.invalidBounds)
        else
          finishInit { s with
            increment := add64 s.increment 1,
            minvalue := add64 s.minvalue p0,
            maxvalue := add64 s.maxvalue p1 }
    | [p0, p1, p2] =>
        if p2 = 0 then (s, some SeqError.invalidStep)
        else if p1 < p0 then (s, some SeqError.invalidBounds)
        else if p0 < MinimumBound ∨ MaximumBound < p1 then
          (s, some SeqError.invalidBounds)
        else
          finishInit { s with
            increment := add64 s.increment p2,
            minvalue := add64 s.minvalue p0,
            maxvalue := add64 s.maxvalue p1 }
    | _ => (s, some SeqError.tooManyArguments)

/-- Modelled from the spec: the single-threaded Counter Init.  Its
current source file is not under src (only its tests are); the spec
states the Counter is behaviorally identical to the ConcurrentCounter
aside from thread-safety, and in a sequential embedding the atomic
loads and stores of AtomicSequence.Init are plain reads and writes, so
the Counter Init is the same state function. -/
def CounterInit (s : State) (params : List Nat) : State × Option SeqError :=
  Init s params

/-- AtomicSequence.Next: unconditionally adds increment into current
(wrapping), then checks the bounds on the updated value; on a bound
violation the zero value is returned but current keeps the
out-of-range value. -/
def Next (s : State) : State × Nat × Option SeqError :=
  let t := { s with current := add64 s.current s.increment }
  if t.current < t.minvalue then (t, 0, some SeqError.belowMinimum)
  else if t.maxvalue < t.current then (t, 0, some SeqError.aboveMaximum)
  else (t, t.current, none)

/-- AtomicSequence.Restart: requires initialization, re-runs the signed
minvalue/increment check, then resets current to the pre-start
sentinel. -/
def Restart (s : State) : State × Option SeqError :=
  if s.initialized = false then (s, some SeqError.notInitialized)
  else if SIGN ≤ sub64 s.minvalue s.increment then
    (s, some SeqError.invalidStep)
  else ({ s with current := sub64 s.minvalue s.increment }, none)

/-- AtomicSequence.Update: rejects a decrease when increment is
positive (the symmetric check for a negative increment is dead code on
uint64), then stores the value unconditionally with no bound check. -/
def Update (s : State) (val : Nat) : State × Option SeqError :=
  if 0 < s.increment ∧ val < s.current then
    (s, some SeqError.nonMonotonic)
  else ({ s with current := val }, none)

/-- AtomicSequence.IsStarted. -/
def IsStarted (s : State) : Bool :=
  if s.initialized = false then false
  else !(s.current < s.minvalue) && (s.current < s.maxvalue)

/-- AtomicSequence.Current. -/
def Current (s : State) : Nat × Option SeqError :=
  if s.initialized = false then (0, some SeqError.notInitialized)
  else if IsStarted s = false then (0, some SeqError.notStarted)
  else (s.current, none)

/-- AtomicSequence.Dump: the serialized payload is modelled as the
key/value record json.Marshal produces, keys in lexical order. -/
def Dump (s : State) : Except SeqError (List (String × Nat)) :=
  if IsStarted s = false then Except.error SeqError.notStarted
  else
    Except.ok
      [("current", s.current),
       ("increment", s.increment),
       ("maxvalue", s.maxvalue),
       ("minvalue", s.minvalue)]

/-- AtomicSequence.Load from an already-parsed JSON object (a finite
string-to-uint64 map, modelled as an association list).  The four keys
are looked up in source order; each found value is swapped into its
field before the next lookup, so a missing later key leaves the earlier
fields already overwritten; initialized is set only at the end. -/
def Load (s : State) (vals : List (String × Nat)) : State × Option SeqError :=
  if s.initialized then (s, some SeqError.alreadyInitialized)
  else
    match vals.lookup "current" with
    | none => (s, some SeqError.malformedState)
    | some c =>
      let s1 := { s with current := c }
      match vals.lookup "increment" with
      | none => (s1, some SeqError.malformedState)
      | some i =>
        let s2 := { s1 with increment := i }
        match vals.lookup "minvalue" with
        | none => (s2, some SeqError.malformedState)
        | some m =>
          let s3 := { s2 with minvalue := m }
          match vals.lookup "maxvalue" with
          | none => (s3, some SeqError.malformedState)
          | some mx =>
            ({ s3 with maxvalue := mx, initialized := true }, none)

/-- Iterated Next, keeping only the state (Next mutates current even on
failure, so the state evolution is unconditional). -/
def nextIter (s : State) : Nat → State
  | 0 => s
  | k + 1 => (Next (nextIter s k)).1

/-- Invariant of the data model as the spec states it: whenever the
instance is initialized, the increment is nonzero, the bounds are
ordered, and the minimum dominates the increment. -/
def Inv (s : State) : Prop :=
  s.initialized = true →
    s.increment ≠ 0 ∧ s.minvalue ≤ s.maxvalue ∧ s.increment ≤ s.minvalue

/-- States reachable from a fresh instance when the first operation is a
successful Init whose arguments all stay below 2^63, followed by any
sequence of Next, Restart and Update calls (Current and Dump do not
change the state; Load is excluded). -/
inductive ReachNL : State → Prop where
  | init (params : List Nat) (hsmall : ∀ p ∈ params, p < SIGN)
      (hok : (Init freshSeq params).2 = none) :
      ReachNL (Init freshSeq params).1
  | next (s : State) (h : ReachNL s) : ReachNL (Next s).1
  | restart (s : State) (h : ReachNL s) : ReachNL (Restart s).1
  | update (s : State) (v : Nat) (h : ReachNL s) : ReachNL (Update s v).1

/-- One atomic primitive inside AtomicSequence.Next: the fetch-add on
current, the two bound-check loads, and the final load whose value the
call returns.  Each is a single atomic access of the shared state; the
source performs them as four independent operations, not as one
transaction. -/
inductive MicroOp where
  | fetchAdd
  | checkMin
  | checkMax
  | loadRet
deriving DecidableEq, Repr

/-- A thread executing one Next call: the primitives still to run and,
once finished, the returned pair. -/
structure ThreadCtx where
  ops : List MicroOp
  result : Option (Nat × Option SeqError)
deriving DecidableEq, Repr

/-- A thread about to execute Next. -/
def newNextThread : ThreadCtx :=
  ⟨[MicroOp.fetchAdd, MicroOp.checkMin, MicroOp.checkMax, MicroOp.loadRet], none⟩

/-- Execute one atomic primitive of a thread against the shared state,
following the source of AtomicSequence.Next: the fetch-add is atomic,
and each later check loads current afresh, so it observes increments
performed by other threads in between. -/
def microStep (sh : State) (t : ThreadCtx) : State × ThreadCtx :=
  match t.ops with
  | [] => (sh, t)
  | op :: rest =>
    match op with
    | MicroOp.fetchAdd =>
        ({ sh with current := add64 sh.current sh.increment },
         { t with ops := rest })
    | MicroOp.checkMin =>
        if sh.current < sh.minvalue then
          (sh, ⟨[], some (0, some SeqError.belowMinimum)⟩)
        else (sh, { t with ops := rest })
    | MicroOp.checkMax =>
        if sh.maxvalue < sh.current then
          (sh, ⟨[], some (0, some SeqError.aboveMaximum)⟩)
        else (sh, { t with ops := rest })
    | MicroOp.loadRet => (sh, ⟨[], some (sh.current, none)⟩)

/-- Run two threads against the shared state under a schedule: true
selects the first thread for one primitive, false the second. -/
def runSched (sh : State) (t1 t2 : ThreadCtx) : List Bool → State × ThreadCtx × ThreadCtx
  | [] => (sh, t1, t2)
  | b :: rest =>
      if b then
        let p := microStep sh t1
        runSched p.1 p.2 t2 rest
      else
        let p := microStep sh t2
        runSched p.1 t1 p.2 rest

/-
Helper lemmas about the 64-bit arithmetic and about the shape of the
operations.  None of them is tied to a single claim.
-/

lemma U64MOD_eq : U64MOD = 18446744073709551616 := by norm_num [U64MOD]

lemma SIGN_eq : SIGN = 9223372036854775808 := by norm_num [SIGN]

lemma sub64_of_le (a b : Nat) (hb : b ≤ a) (ha : a < U64MOD) : sub64 a b = a - b := by
  have hbm : b % U64MOD = b := Nat.mod_eq_of_lt (lt_of_le_of_lt hb ha)
  unfold sub64
  rw [hbm]
  have h1 : a + (U64MOD - b) = U64MOD + (a - b) := by omega
  rw [h1, Nat.add_mod_left]
  exact Nat.mod_eq_of_lt (by omega)

lemma sub64_lt_sign_iff (a b : Nat) (ha : a < SIGN) (hb : b < SIGN) :
    (sub64 a b < SIGN) ↔ b ≤ a := by
  have hM := U64MOD_eq
  have hS := SIGN_eq
  have hbm : b % U64MOD = b := Nat.mod_eq_of_lt (by omega)
  unfold sub64
  rw [hbm]
  rcases le_or_lt b a with h | h
  · have h1 : a + (U64MOD - b) = U64MOD + (a - b) := by omega
    rw [h1, Nat.add_mod_left, Nat.mod_eq_of_lt (by omega)]
    omega
  · rw [Nat.mod_eq_of_lt (by omega)]
    omega

lemma add64_zero_left (x : Nat) (hx : x < U64MOD) : add64 0 x = x := by
  simpa [add64] using Nat.mod_eq_of_lt hx

lemma Next_fst (s : State) :
    (Next s).1 = { s with current := add64 s.current s.increment } := by
  unfold Next
  dsimp only
  split
  · rfl
  · split <;> rfl

lemma nextIter_eq (s : State) (k : Nat) (hc : s.current < U64MOD) :
    nextIter s k = { s with current := (s.current + k * s.increment) % U64MOD } := by
  induction k with
  | zero =>
      simp [nextIter, Nat.mod_eq_of_lt hc]
  | succ n ih =>
      rw [nextIter, ih, Next_fst]
      simp only [add64]
      congr 1
      rw [Nat.mod_add_mod]
      ring_nf

lemma finishInit_ok_initialized (t : State) (h : (finishInit t).2 = none) :
    (finishInit t).1.initialized = true := by
  unfold finishInit at h ⊢
  by_cases hc : SIGN ≤ sub64 t.minvalue t.increment
  · rw [if_pos hc] at h
    simp at h
  · rw [if_neg hc]

lemma finishInit_fst_snd (t : State) :
    finishInit t = (t, some SeqError.invalidStep) ∨
    finishInit t =
      ({ t with current := sub64 t.minvalue t.increment, initialized := true },
       none) := by
  unfold finishInit
  by_cases h : SIGN ≤ sub64 t.minvalue t.increment
  · rw [if_pos h]
    left
    rfl
  · rw [if_neg h]
    right
    rfl

lemma Init_fresh_zero : Init freshSeq [] = (⟨0, 1, 1, MaximumBound, true⟩, none) := by
  decide

lemma Init_fresh_one (p0 : Nat) (h0 : p0 < U64MOD) :
    Init freshSeq [p0] =
      if p0 < MinimumBound then (freshSeq, some SeqError.invalidBounds)
      else (⟨0, 1, 1, p0, true⟩, none) := by
  have e1 : add64 0 1 = 1 := by decide
  have e2 := add64_zero_left p0 h0
  have e3 : add64 0 MinimumBound = 1 := by decide
  have e4 : sub64 1 1 = 0 := by decide
  simp only [Init, freshSeq, finishInit, e1, e2, e3, e4]
  simp only [show ((false = true) = False) from by simp, if_false]
  simp only [show ((SIGN ≤ 0) = False) from eq_false (by decide), if_false]

lemma Init_fresh_two (p0 p1 : Nat) (h0 : p0 < U64MOD) (h1 : p1 < U64MOD) :
    Init freshSeq [p0, p1] =
      if p1 < p0 then (freshSeq, some SeqError.invalidBounds)
      else if p0 < MinimumBound ∨ MaximumBound < p1 then
        (freshSeq, some SeqError.invalidBounds)
      else if SIGN ≤ sub64 p0 1 then
        (⟨0, 1, p0, p1, false⟩, some SeqError.invalidStep)
      else (⟨sub64 p0 1, 1, p0, p1, true⟩, none) := by
  have e1 : add64 0 1 = 1 := by decide
  have e2 := add64_zero_left p0 h0
  have e3 := add64_zero_left p1 h1
  simp only [Init, freshSeq, finishInit, e1, e2, e3]
  simp only [show ((false = true) = False) from by simp, if_false]

lemma Init_fresh_three (mn mx st : Nat) (hm : mn < U64MOD) (hx : mx < U64MOD)
    (hs : st < U64MOD) :
    Init freshSeq [mn, mx, st] =
      if st = 0 then (freshSeq, some SeqError.invalidStep)
      else if mx < mn then (freshSeq, some SeqError.invalidBounds)
      else if mn < MinimumBound ∨ MaximumBound < mx then
        (freshSeq, some SeqError.invalidBounds)
      else if SIGN ≤ sub64 mn st then
        (⟨0, st, mn, mx, false⟩, some SeqError.invalidStep)
      else (⟨sub64 mn st, st, mn, mx, true⟩, none) := by
  have e1 := add64_zero_left st hs
  have e2 := add64_zero_left mn hm
  have e3 := add64_zero_left mx hx
  simp only [Init, freshSeq, finishInit, e1, e2, e3]
  simp only [show ((false = true) = False) from by simp, if_false]

lemma Init_fresh_three_ok_iff (mn mx st : Nat) (hm : mn < U64MOD) (hx : mx < U64MOD)
    (hs : st < U64MOD) :
    (Init freshSeq [mn, mx, st]).2 = none ↔
      (st ≠ 0 ∧ mn ≤ mx ∧ MinimumBound ≤ mn ∧ mx ≤ MaximumBound ∧
        sub64 mn st < SIGN) := by
  rw [Init_fresh_three mn mx st hm hx hs]
  split_ifs with h1 h2 h3 h4 <;> simp <;> omega

lemma Init_fresh_three_ok_state (mn mx st : Nat) (hm : mn < U64MOD) (hx : mx < U64MOD)
    (hs : st < U64MOD) (hok : (Init freshSeq [mn, mx, st]).2 = none) :
    (Init freshSeq [mn, mx, st]).1 = ⟨sub64 mn st, st, mn, mx, true⟩ := by
  rw [Init_fresh_three mn mx st hm hx hs] at hok ⊢
  split_ifs at hok ⊢ <;> simp_all

lemma Init_red_zero :
    Init freshSeq [] =
      finishInit ⟨0, add64 0 1, add64 0 MinimumBound, add64 0 MaximumBound, false⟩ := by
  simp only [Init, freshSeq]
  simp only [show ((false = true) = False) from by simp, if_false]

lemma Init_red_one (a : Nat) :
    Init freshSeq [a] =
      if a < MinimumBound then (freshSeq, some SeqError.invalidBounds)
      else finishInit ⟨0, add64 0 1, add64 0 MinimumBound, add64 0 a, false⟩ := by
  simp only [Init, freshSeq]
  simp only [show ((false = true) = False) from by simp, if_false]

lemma Init_red_two (a b : Nat) :
    Init freshSeq [a, b] =
      if b < a then (freshSeq, some SeqError.invalidBounds)
      else if a < MinimumBound ∨ MaximumBound < b then
        (freshSeq, some SeqError.invalidBounds)
      else finishInit ⟨0, add64 0 1, add64 0 a, add64 0 b, false⟩ := by
  simp only [Init, freshSeq]
  simp only [show ((false = true) = False) from by simp, if_false]

lemma Init_red_three (a b c : Nat) :
    Init freshSeq [a, b, c] =
      if c = 0 then (freshSeq, some SeqError.invalidStep)
      else if b < a then (freshSeq, some SeqError.invalidBounds)
      else if a < MinimumBound ∨ MaximumBound < b then
        (freshSeq, some SeqError.invalidBounds)
      else finishInit ⟨0, add64 0 c, add64 0 a, add64 0 b, false⟩ := by
  simp only [Init, freshSeq]
  simp only [show ((false = true) = False) from by simp, if_false]

lemma Init_red_more (a b c d : Nat) (rest : List Nat) :
    Init freshSeq (a :: b :: c :: d :: rest) =
      (freshSeq, some SeqError.tooManyArguments) := by
  simp only [Init, freshSeq]
  simp only [show ((false = true) = False) from by simp, if_false]

lemma Next_sameFields (s : State) :
    (Next s).1.increment = s.increment ∧ (Next s).1.minvalue = s.minvalue ∧
    (Next s).1.maxvalue = s.maxvalue ∧ (Next s).1.initialized = s.initialized := by
  rw [Next_fst]
  exact ⟨rfl, rfl, rfl, rfl⟩

lemma Restart_sameFields (s : State) :
    (Restart s).1.increment = s.increment ∧ (Restart s).1.minvalue = s.minvalue ∧
    (Restart s).1.maxvalue = s.maxvalue ∧
    (Restart s).1.initialized = s.initialized := by
  unfold Restart
  split_ifs <;> exact ⟨rfl, rfl, rfl, rfl⟩

lemma Update_sameFields (s : State) (v : Nat) :
    (Update s v).1.increment = s.increment ∧
    (Update s v).1.minvalue = s.minvalue ∧
    (Update s v).1.maxvalue = s.maxvalue ∧
    (Update s v).1.initialized = s.initialized := by
  unfold Update
  split_ifs <;> exact ⟨rfl, rfl, rfl, rfl⟩

lemma Init_fresh_ok_inv (params : List Nat) (hsmall : ∀ p ∈ params, p < SIGN)
    (hok : (Init freshSeq params).2 = none) : Inv (Init freshSeq params).1 := by
  have hM := U64MOD_eq
  have hS := SIGN_eq
  unfold Inv
  rcases params with _ | ⟨a, _ | ⟨b, _ | ⟨c, _ | d⟩⟩⟩
  · rw [Init_fresh_zero]
    intro _
    refine ⟨by norm_num, by norm_num [MaximumBound], le_refl 1⟩
  · have ha : a < SIGN := hsmall a (by simp)
    rw [Init_fresh_one a (by omega)] at hok ⊢
    by_cases hcond : a < MinimumBound
    · rw [if_pos hcond] at hok
      simp at hok
    · rw [if_neg hcond] at hok ⊢
      intro _
      dsimp only
      simp only [MinimumBound] at hcond
      refine ⟨one_ne_zero, by omega, le_refl 1⟩
  · have ha : a < SIGN := hsmall a (by simp)
    have hb : b < SIGN := hsmall b (by simp)
    rw [Init_fresh_two a b (by omega) (by omega)] at hok ⊢
    by_cases h1 : b < a
    · rw [if_pos h1] at hok
      simp at hok
    · rw [if_neg h1] at hok ⊢
      by_cases h2 : a < MinimumBound ∨ MaximumBound < b
      · rw [if_pos h2] at hok
        simp at hok
      · rw [if_neg h2] at hok ⊢
        by_cases h3 : SIGN ≤ sub64 a 1
        · rw [if_pos h3] at hok
          simp at hok
        · rw [if_neg h3] at hok ⊢
          intro _
          dsimp only
          simp only [MinimumBound, not_or, not_lt] at h2
          refine ⟨one_ne_zero, by omega, by omega⟩
  · have ha : a < SIGN := hsmall a (by simp)
    have hb : b < SIGN := hsmall b (by simp)
    have hc : c < SIGN := hsmall c (by simp)
    rw [Init_fresh_three a b c (by omega) (by omega) (by omega)] at hok ⊢
    by_cases h1 : c = 0
    · rw [if_pos h1] at hok
      simp at hok
    · rw [if_neg h1] at hok ⊢
      by_cases h2 : b < a
      · rw [if_pos h2] at hok
        simp at hok
      · rw [if_neg h2] at hok ⊢
        by_cases h3 : a < MinimumBound ∨ MaximumBound < b
        · rw [if_pos h3] at hok
          simp at hok
        · rw [if_neg h3] at hok ⊢
          by_cases h4 : SIGN ≤ sub64 a c
          · rw [if_pos h4] at hok
            simp at hok
          · rw [if_neg h4] at hok ⊢
            intro _
            dsimp only
            have hca : c ≤ a := (sub64_lt_sign_iff a c ha hc).mp (by omega)
            refine ⟨h1, by omega, hca⟩
  · simp [Init, freshSeq] at hok

/-
Claim theorems.
-/

/-- C1: for every uint64 triple (minvalue, maxvalue, step) with step
positive, minvalue at most maxvalue and minvalue at least step, after a
successful Init(minvalue, maxvalue, step) on a fresh instance the j-th
of k successive Next calls returns exactly minvalue + j * step with no
error, as long as each such value stays at most maxvalue. -/
theorem c1_advance_yields_arithmetic_progression (mn mx st k : Nat)
    (hmw : mn < U64MOD) (hxw : mx < U64MOD) (hsw : st < U64MOD)
    (hst : 0 < st) (hle : mn ≤ mx) (hms : st ≤ mn)
    (hok : (Init freshSeq [mn, mx, st]).2 = none)
    (hbound : ∀ j, j < k → mn + j * st ≤ mx) :
    ∀ j, j < k →
      (Next (nextIter (Init freshSeq [mn, mx, st]).1 j)).2 = (mn + j * st, none) := by
  intro j hj
  have hM := U64MOD_eq
  have hstate := Init_fresh_three_ok_state mn mx st hmw hxw hsw hok
  have hsub : sub64 mn st = mn - st := sub64_of_le mn st hms hmw
  rw [hstate, hsub]
  have hjb : mn + j * st ≤ mx := hbound j hj
  have hcur : (mn - st) + j * st < U64MOD := by omega
  have hiter := nextIter_eq ⟨mn - st, st, mn, mx, true⟩ j (by dsimp only; omega)
  dsimp only at hiter
  rw [Nat.mod_eq_of_lt hcur] at hiter
  rw [hiter]
  have hadd : add64 (mn - st + j * st) st = mn + j * st := by
    unfold add64
    rw [Nat.mod_eq_of_lt (by omega)]
    omega
  unfold Next
  dsimp only
  rw [hadd]
  rw [if_neg (by omega), if_neg (by omega)]

/-- C1 witness: Init(10, 100, 5) succeeds and the third Next call
returns 20. -/
theorem c1_witness :
    (Next (nextIter (Init freshSeq [10, 100, 5]).1 2)).2 = (20, none) :=
  c1_advance_yields_arithmetic_progression 10 100 5 3
    (by decide) (by decide) (by decide) (by decide) (by decide) (by decide)
    (by decide) (by decide) 2 (by decide)

/-- C2 counterexample: after Init(2^63 - 1, 2^63, 2^63 - 1) the second
Next call fails with AboveMaximum, yet the 2^63-th call succeeds and
returns 2^63, because current wraps around 2^64; so failure is not
permanent, refuting the claim that every subsequent call fails. -/
theorem c2_counterexample :
    (Next (nextIter (Init freshSeq [2 ^ 63 - 1, 2 ^ 63, 2 ^ 63 - 1]).1 1)).2
        = (0, some SeqError.aboveMaximum) ∧
    (Next (nextIter (Init freshSeq [2 ^ 63 - 1, 2 ^ 63, 2 ^ 63 - 1]).1
        (2 ^ 63 - 1))).2 = (2 ^ 63, none) := by
  have hS : (Init freshSeq [2 ^ 63 - 1, 2 ^ 63, 2 ^ 63 - 1]).1
      = ⟨0, 2 ^ 63 - 1, 2 ^ 63 - 1, 2 ^ 63, true⟩ := by decide
  constructor
  · rw [hS]
    decide
  · rw [hS]
    have hiter := nextIter_eq ⟨0, 2 ^ 63 - 1, 2 ^ 63 - 1, 2 ^ 63, true⟩
      (2 ^ 63 - 1) (by norm_num [U64MOD])
    dsimp only at hiter
    have harith : (0 + (2 ^ 63 - 1) * (2 ^ 63 - 1)) % U64MOD = 1 := by decide
    rw [harith] at hiter
    rw [hiter]
    decide

/-- C2 amended: once current exceeds maxvalue (with ordered bounds),
every one of the next k + 1 Next calls fails with AboveMaximum and
returns the zero value, as long as the running current does not wrap
past 2^64; each failing call leaves current at the out-of-range value
current + (j + 1) * increment with no rollback. -/
theorem c2_amended_sticky_before_wrap (s : State) (k : Nat)
    (hc : s.current < U64MOD) (hmm : s.minvalue ≤ s.maxvalue)
    (hover : s.maxvalue < s.current)
    (hnw : s.current + (k + 1) * s.increment < U64MOD) :
    ∀ j, j ≤ k →
      (Next (nextIter s j)).2 = (0, some SeqError.aboveMaximum) ∧
      (Next (nextIter s j)).1.current = s.current + (j + 1) * s.increment := by
  intro j hj
  have hjm : s.current + j * s.increment < U64MOD := by
    have : j * s.increment ≤ (k + 1) * s.increment :=
      Nat.mul_le_mul_right _ (by omega)
    omega
  have hjm1 : s.current + (j + 1) * s.increment < U64MOD := by
    have : (j + 1) * s.increment ≤ (k + 1) * s.increment :=
      Nat.mul_le_mul_right _ (by omega)
    omega
  have hiter := nextIter_eq s j hc
  rw [Nat.mod_eq_of_lt hjm] at hiter
  have hadd : add64 (s.current + j * s.increment) s.increment
      = s.current + (j + 1) * s.increment := by
    unfold add64
    rw [Nat.mod_eq_of_lt (by ring_nf; ring_nf at hjm1; omega)]
    ring
  rw [hiter]
  unfold Next
  dsimp only
  rw [hadd]
  rw [if_neg (by omega), if_pos (by omega)]
  exact ⟨rfl, rfl⟩

/-- C2 witness: from the state with current 11 above maxvalue 10, the
second of three calls fails with AboveMaximum leaving current 13. -/
theorem c2_witness :
    (Next (nextIter ⟨11, 1, 1, 10, true⟩ 1)).2 = (0, some SeqError.aboveMaximum) ∧
    (Next (nextIter ⟨11, 1, 1, 10, true⟩ 1)).1.current = 13 :=
  c2_amended_sticky_before_wrap ⟨11, 1, 1, 10, true⟩ 2
    (by decide) (by decide) (by decide) (by decide) 1 (by decide)

/-- C3: calling Init on an already-initialized instance fails with the
AlreadyInitialized error and leaves every field unchanged, for the
AtomicSequence and for the spec-modelled single-threaded Counter; and
any successful Init leaves the instance initialized, so initialization
succeeds at most once per instance. -/
theorem c3_reinit_fails_unchanged (s : State) (p : List Nat)
    (h : s.initialized = true) :
    Init s p = (s, some SeqError.alreadyInitialized) ∧
    CounterInit s p = (s, some SeqError.alreadyInitialized) ∧
    ∀ t q, (Init t q).2 = none → (Init t q).1.initialized = true := by
  refine ⟨by simp [Init, h], by simp [CounterInit, Init, h], ?_⟩
  intro t q hq
  unfold Init at hq ⊢
  split at hq
  · simp_all
  · rcases q with _ | ⟨a, _ | ⟨b, _ | ⟨c, _ | d⟩⟩⟩ <;>
      simp only at hq ⊢ <;>
      first
        | exact finishInit_ok_initialized _ hq
        | (split_ifs at hq ⊢ <;>
            first
              | exact finishInit_ok_initialized _ hq
              | simp_all)

/-- C3 witness: a second Init on an initialized instance fails and
leaves the state unchanged, for both variants. -/
theorem c3_witness :
    Init ⟨0, 1, 1, 10, true⟩ [] = (⟨0, 1, 1, 10, true⟩, some SeqError.alreadyInitialized) ∧
    CounterInit ⟨0, 1, 1, 10, true⟩ []
      = (⟨0, 1, 1, 10, true⟩, some SeqError.alreadyInitialized) :=
  ⟨(c3_reinit_fails_unchanged ⟨0, 1, 1, 10, true⟩ [] rfl).1,
   (c3_reinit_fails_unchanged ⟨0, 1, 1, 10, true⟩ [] rfl).2.1⟩

/-- C4 counterexample: Init(1, 100, 2^63 + 2) on a fresh instance
succeeds although minvalue 1 is smaller than the step, and
Init(2^63 + 1, 2^64 - 2, 1) fails with InvalidStep although every
condition of the claim holds; the int64 conversion in the final check
wraps, so success is not equivalent to minvalue being at least the
step. -/
theorem c4_counterexample :
    (Init freshSeq [1, 100, 2 ^ 63 + 2]).2 = none ∧
    ¬(2 ^ 63 + 2 ≤ 1) ∧
    (Init freshSeq [2 ^ 63 + 1, 2 ^ 64 - 2, 1]).2 = some SeqError.invalidStep ∧
    ((1 : Nat) ≠ 0 ∧ 2 ^ 63 + 1 ≤ 2 ^ 64 - 2 ∧ MinimumBound ≤ 2 ^ 63 + 1 ∧
      2 ^ 64 - 2 ≤ MaximumBound ∧ 1 ≤ 2 ^ 63 + 1) := by
  decide

/-- C4 amended: on a fresh instance, Init(minvalue, maxvalue, step)
succeeds if and only if the step is nonzero, the bounds are ordered and
inside [MinimumBound, MaximumBound], and the 64-bit difference
minvalue - step has a clear sign bit (the int64 comparison the code
performs); on success the state is exactly (minvalue - step mod 2^64,
step, minvalue, maxvalue, initialized); for minvalue and step below
2^63 the sign-bit condition coincides with minvalue being at least the
step, as the claim stated. -/
theorem c4_amended_init_characterization (mn mx st : Nat) (hm : mn < U64MOD)
    (hx : mx < U64MOD) (hs : st < U64MOD) :
    ((Init freshSeq [mn, mx, st]).2 = none ↔
      (st ≠ 0 ∧ mn ≤ mx ∧ MinimumBound ≤ mn ∧ mx ≤ MaximumBound ∧
        sub64 mn st < SIGN)) ∧
    ((Init freshSeq [mn, mx, st]).2 = none →
      (Init freshSeq [mn, mx, st]).1 = ⟨sub64 mn st, st, mn, mx, true⟩) ∧
    (mn < SIGN → st < SIGN → (sub64 mn st < SIGN ↔ st ≤ mn)) :=
  ⟨Init_fresh_three_ok_iff mn mx st hm hx hs,
   Init_fresh_three_ok_state mn mx st hm hx hs,
   fun h1 h2 => sub64_lt_sign_iff mn st h1 h2⟩

/-- C4 witness: Init(10, 100, 5) succeeds and produces the state
(5, 5, 10, 100, initialized). -/
theorem c4_witness :
    (Init freshSeq [10, 100, 5]).2 = none ∧
    (Init freshSeq [10, 100, 5]).1 = ⟨5, 5, 10, 100, true⟩ :=
  have h := c4_amended_init_characterization 10 100 5 (by decide) (by decide) (by decide)
  ⟨h.1.mpr (by decide), h.2.1 (h.1.mpr (by decide))⟩

/-- C5 counterexample: on the default-initialized sequence, Update to
MaximumBound succeeds, but the next Next call returns the zero value
and the AboveMaximum error instead of MaximumBound + 1; the claim that
the next Next always returns v + increment fails when v + increment
exceeds maxvalue. -/
theorem c5_counterexample :
    (Update (Init freshSeq []).1 MaximumBound).2 = none ∧
    (Next (Update (Init freshSeq []).1 MaximumBound).1).2
        = (0, some SeqError.aboveMaximum) ∧
    (0, some SeqError.aboveMaximum) ≠ (MaximumBound + 1, (none : Option SeqError)) := by
  decide

/-- C5 amended: on an initialized sequence with positive step,
Update(v) fails with NonMonotonic exactly when v is below current,
leaving the state unchanged; otherwise it succeeds setting current to v
with no bound check, and the next Next call returns v + increment
provided that value lies within the bounds and below 2^64. -/
theorem c5_amended_update_characterization (s : State) (v : Nat)
    (hinit : s.initialized = true) (hstep : 0 < s.increment) :
    (v < s.current → Update s v = (s, some SeqError.nonMonotonic)) ∧
    (¬v < s.current →
      Update s v = ({ s with current := v }, none) ∧
      (s.minvalue ≤ v + s.increment → v + s.increment ≤ s.maxvalue →
        v + s.increment < U64MOD →
        (Next { s with current := v }).2 = (v + s.increment, none))) := by
  constructor
  · intro hlt
    unfold Update
    rw [if_pos ⟨hstep, hlt⟩]
  · intro hge
    constructor
    · unfold Update
      rw [if_neg (by tauto)]
    · intro h1 h2 h3
      unfold Next
      dsimp only
      have hadd : add64 v s.increment = v + s.increment := by
        unfold add64
        exact Nat.mod_eq_of_lt h3
      rw [hadd, if_neg (by omega), if_neg (by omega)]

/-- C5 witness: from the state (5, 1, 1, 10, initialized), Update(7)
succeeds and the next call returns 8. -/
theorem c5_witness :
    Update ⟨5, 1, 1, 10, true⟩ 7 = (⟨7, 1, 1, 10, true⟩, none) ∧
    (Next ⟨7, 1, 1, 10, true⟩).2 = (8, none) :=
  have h := c5_amended_update_characterization ⟨5, 1, 1, 10, true⟩ 7 rfl (by decide)
  ⟨(h.2 (by decide)).1,
   (h.2 (by decide)).2 (by decide) (by decide) (by decide)⟩

/-- C6: for every started sequence, Dump succeeds with the four-field
record, loading that record into a fresh instance succeeds and
reproduces current, increment, minvalue and maxvalue, and the restored
instance reports IsStarted. -/
theorem c6_dump_load_roundtrip (s : State) (h : IsStarted s = true) :
    Dump s = Except.ok
      [("current", s.current), ("increment", s.increment),
       ("maxvalue", s.maxvalue), ("minvalue", s.minvalue)] ∧
    Load freshSeq
      [("current", s.current), ("increment", s.increment),
       ("maxvalue", s.maxvalue), ("minvalue", s.minvalue)] =
      (⟨s.current, s.increment, s.minvalue, s.maxvalue, true⟩, none) ∧
    IsStarted ⟨s.current, s.increment, s.minvalue, s.maxvalue, true⟩ = true := by
  have hmin : ¬s.current < s.minvalue := by
    unfold IsStarted at h
    split at h
    · simp at h
    · simp only [Bool.and_eq_true, Bool.not_eq_true] at h
      simpa using h.1
  have hmax : s.current < s.maxvalue := by
    unfold IsStarted at h
    split at h
    · simp at h
    · simp only [Bool.and_eq_true] at h
      exact of_decide_eq_true h.2
  refine ⟨?_, ?_, ?_⟩
  · unfold Dump
    rw [if_neg (by simp [h])]
  · rfl
  · unfold IsStarted
    simp [hmin, hmax]

/-- C6 witness: the started state (5, 1, 1, 10) dumps and reloads to an
identical started state. -/
theorem c6_witness :
    Dump ⟨5, 1, 1, 10, true⟩ = Except.ok
      [("current", 5), ("increment", 1), ("maxvalue", 10), ("minvalue", 1)] ∧
    Load freshSeq [("current", 5), ("increment", 1), ("maxvalue", 10), ("minvalue", 1)]
      = (⟨5, 1, 1, 10, true⟩, none) ∧
    IsStarted ⟨5, 1, 1, 10, true⟩ = true :=
  c6_dump_load_roundtrip ⟨5, 1, 1, 10, true⟩ (by decide)

/-- C7 counterexample: Load on a fresh instance accepts a record with a
zero increment and minvalue above maxvalue and marks the instance
initialized, so the claimed invariant fails in a state reachable by the
public Load operation. -/
theorem c7_counterexample :
    Load freshSeq [("current", 0), ("increment", 0), ("minvalue", 5), ("maxvalue", 3)]
      = (⟨0, 0, 5, 3, true⟩, none) ∧
    ¬Inv ⟨0, 0, 5, 3, true⟩ := by
  constructor
  · rfl
  · intro hinv
    rcases hinv rfl with ⟨h1, h2, h3⟩
    exact h1 rfl

/-- C7 amended: in every state reachable from a fresh instance by one
successful Init whose arguments are all below 2^63 followed by any
sequence of Next, Restart and Update calls (Load excluded, and no
failed Init attempts before the successful one), an initialized state
has a nonzero increment, ordered bounds, and minvalue at least the
increment. -/
theorem c7_amended_invariant (s : State) (h : ReachNL s) : Inv s := by
  induction h with
  | init params hsmall hok => exact Init_fresh_ok_inv params hsmall hok
  | next t ht ih =>
      have hf := Next_sameFields t
      unfold Inv at ih ⊢
      rw [hf.1, hf.2.1, hf.2.2.1, hf.2.2.2]
      exact ih
  | restart t ht ih =>
      have hf := Restart_sameFields t
      unfold Inv at ih ⊢
      rw [hf.1, hf.2.1, hf.2.2.1, hf.2.2.2]
      exact ih
  | update t v ht ih =>
      have hf := Update_sameFields t v
      unfold Inv at ih ⊢
      rw [hf.1, hf.2.1, hf.2.2.1, hf.2.2.2]
      exact ih

/-- C7 witness: the default-initialized state satisfies the
invariant. -/
theorem c7_witness : Inv (Init freshSeq []).1 :=
  c7_amended_invariant (Init freshSeq []).1
    (ReachNL.init [] (by intro p hp; simp at hp) (by decide))

/-- C8 counterexample: Init(1, 100, 2) on a fresh instance fails with
InvalidStep but has already added the arguments into the fields, so a
subsequent Init(10, 100, 2) succeeds with accumulated values instead of
the state a fresh Init(10, 100, 2) would produce; retry after this
failure is not safe. -/
theorem c8_counterexample :
    (Init freshSeq [1, 100, 2]).2 = some SeqError.invalidStep ∧
    (Init freshSeq [1, 100, 2]).1 ≠ freshSeq ∧
    (Init (Init freshSeq [1, 100, 2]).1 [10, 100, 2]).2 = none ∧
    (Init (Init freshSeq [1, 100, 2]).1 [10, 100, 2]).1
      ≠ (Init freshSeq [10, 100, 2]).1 := by
  decide

/-- C8 amended: an Init on a fresh instance that fails with
InvalidBounds or TooManyArguments, or with InvalidStep for a zero step,
leaves the instance exactly in the fresh state, so retrying is safe;
every failing Init leaves initialized false; but a failure of the final
signed minvalue-versus-step check occurs after the field additions
(shown by the counterexample), so only those pre-addition failures are
safe to retry. -/
theorem c8_amended_failure_states (p : List Nat) :
    ((Init freshSeq p).2 = some SeqError.invalidBounds →
      (Init freshSeq p).1 = freshSeq) ∧
    ((Init freshSeq p).2 = some SeqError.tooManyArguments →
      (Init freshSeq p).1 = freshSeq) ∧
    (p.getD 2 1 = 0 → (Init freshSeq p).1 = freshSeq ∧ (Init freshSeq p).2 ≠ none) ∧
    ((Init freshSeq p).2 ≠ none → (Init freshSeq p).1.initialized = false) := by
  rcases p with _ | ⟨a, _ | ⟨b, _ | ⟨c, _ | d⟩⟩⟩
  · rw [Init_red_zero]
    rcases finishInit_fst_snd ⟨0, add64 0 1, add64 0 MinimumBound, add64 0 MaximumBound, false⟩
      with hf | hf <;> rw [hf] <;> simp [freshSeq]
  · rw [Init_red_one a]
    by_cases h1 : a < MinimumBound
    · rw [if_pos h1]
      simp [freshSeq]
    · rw [if_neg h1]
      rcases finishInit_fst_snd ⟨0, add64 0 1, add64 0 MinimumBound, add64 0 a, false⟩
        with hf | hf <;> rw [hf] <;> simp [freshSeq]
  · rw [Init_red_two a b]
    by_cases h1 : b < a
    · rw [if_pos h1]
      simp [freshSeq]
    · rw [if_neg h1]
      by_cases h2 : a < MinimumBound ∨ MaximumBound < b
      · rw [if_pos h2]
        simp [freshSeq]
      · rw [if_neg h2]
        rcases finishInit_fst_snd ⟨0, add64 0 1, add64 0 a, add64 0 b, false⟩
          with hf | hf <;> rw [hf] <;> simp [freshSeq]
  · rw [Init_red_three a b c]
    by_cases h1 : c = 0
    · rw [if_pos h1]
      simp [freshSeq, h1]
    · rw [if_neg h1]
      by_cases h2 : b < a
      · rw [if_pos h2]
        simp [freshSeq, h1]
      · rw [if_neg h2]
        by_cases h3 : a < MinimumBound ∨ MaximumBound < b
        · rw [if_pos h3]
          simp [freshSeq, h1]
        · rw [if_neg h3]
          rcases finishInit_fst_snd ⟨0, add64 0 c, add64 0 a, add64 0 b, false⟩
            with hf | hf <;> rw [hf] <;> simp [freshSeq, h1]
  · rw [Init_red_more a b c d]
    simp [freshSeq]

/-- C8 witness: Init(100, 10) fails with InvalidBounds and leaves the
fresh instance unchanged. -/
theorem c8_witness : (Init freshSeq [100, 10]).1 = freshSeq :=
  (c8_amended_failure_states [100, 10]).1 (by decide)

/-- C9: two concurrent Next calls on the default-initialized sequence,
interleaved so that both fetch-adds run before either bound check, both
return the value 2 with no error, and the value 1 is returned by
neither; a serialized schedule of the same two calls returns 1 and 2.
The source returns a fresh load of current instead of the fetch-add
result, so concurrent calls can duplicate a value and skip another,
contradicting the claimed no-duplicates, no-gaps guarantee. -/
theorem c9_concurrent_duplicate_return :
    (runSched (Init freshSeq []).1 newNextThread newNextThread
        [true, false, true, true, true, false, false, false]).2
      = (⟨[], some (2, none)⟩, ⟨[], some (2, none)⟩) ∧
    (runSched (Init freshSeq []).1 newNextThread newNextThread
        [true, true, true, true, false, false, false, false]).2
      = (⟨[], some (1, none)⟩, ⟨[], some (2, none)⟩) := by
  decide

/-- C10: Load on a fresh instance from a parsed record missing one of
the four keys returns MalformedState with initialized still false, but
every field whose key was checked before the missing one, in the order
current, increment, minvalue, maxvalue, has already been overwritten
with the decoded value. -/
theorem c10_load_partial_mutation (vals : List (String × Nat)) (c i m : Nat) :
    (vals.lookup "current" = none →
      Load freshSeq vals = (freshSeq, some SeqError.malformedState)) ∧
    (vals.lookup "current" = some c → vals.lookup "increment" = none →
      Load freshSeq vals = (⟨c, 0, 0, 0, false⟩, some SeqError.malformedState)) ∧
    (vals.lookup "current" = some c → vals.lookup "increment" = some i →
      vals.lookup "minvalue" = none →
      Load freshSeq vals = (⟨c, i, 0, 0, false⟩, some SeqError.malformedState)) ∧
    (vals.lookup "current" = some c → vals.lookup "increment" = some i →
      vals.lookup "minvalue" = some m → vals.lookup "maxvalue" = none →
      Load freshSeq vals = (⟨c, i, m, 0, false⟩, some SeqError.malformedState)) := by
  refine ⟨?_, ?_, ?_, ?_⟩
  · intro h1
    simp only [Load, freshSeq]
    simp only [show ((false = true) = False) from by simp, if_false]
    rw [h1]
  · intro h1 h2
    simp only [Load, freshSeq]
    simp only [show ((false = true) = False) from by simp, if_false]
    rw [h1, h2]
  · intro h1 h2 h3
    simp only [Load, freshSeq]
    simp only [show ((false = true) = False) from by simp, if_false]
    rw [h1, h2, h3]
  · intro h1 h2 h3 h4
    simp only [Load, freshSeq]
    simp only [show ((false = true) = False) from by simp, if_false]
    rw [h1, h2, h3, h4]

/-- C10 witness: loading a record with current 7 and increment 2 but no
minvalue key fails with MalformedState after overwriting current and
increment, leaving initialized false. -/
theorem c10_witness :
    Load freshSeq [("current", 7), ("increment", 2), ("minvalue", 3)]
      = (⟨7, 2, 3, 0, false⟩, some SeqError.malformedState) :=
  (c10_load_partial_mutation [("current", 7), ("increment", 2), ("minvalue", 3)] 7 2 3).2.2.2
    (by decide) (by decide) (by decide) (by decide)

end Sequence
